import Mathlib

/-!
Verification of the interactive terminal menu engine of this repository
(`src/utils/setup_menu_engine.py`, with key reading from
`src/utils/setup_ui_io.py` / `setup_env.py`).

The engine is shallowly embedded: the mutable Python `MenuItem` tree
becomes an inductive value, flat rows hold tree positions instead of
object references (Python compares rows to items by object identity and
every item occurs at exactly one tree position), and the render/input
loop `interactive_menu` becomes a recursive function over the list of
key events.  The cursor-memory dictionary becomes an association list.
Rendering is modelled down to the strings printed per frame, and escape
sequences are interpreted by a small terminal model (a list of screen
lines plus a cursor row).
-/

namespace MenuEngine

/-- A menu item, mirroring class `MenuItem` of `setup_menu_engine.py`:
label, description, the `selectable` flag (`getattr(item, "selectable", True)`
defaults to true on the base class), the multi-select flag `is_selected`,
and the ordered children.  The `action` callable and `dynamic_label` are
not needed by any verified claim and are omitted. -/
inductive MenuItem : Type where
  | mk : String → String → Bool → Bool → List MenuItem → MenuItem

def MenuItem.label : MenuItem → String
  | .mk l _ _ _ _ => l

def MenuItem.description : MenuItem → String
  | .mk _ d _ _ _ => d

def MenuItem.selectable : MenuItem → Bool
  | .mk _ _ s _ _ => s

def MenuItem.is_selected : MenuItem → Bool
  | .mk _ _ _ b _ => b

def MenuItem.children : MenuItem → List MenuItem
  | .mk _ _ _ _ c => c

def defaultMenuItem : MenuItem := .mk "" "" true false []

/-- One entry of the `flat_rows` list built at the top of the render loop.
The Python dict `{"obj": ..., "level": ..., "parent": ...}` holds object
references; here a row holds the position of its object in the tree
(`objTop` = index of the top-level item, `objChild` = index among that
item's children, or `none` for the top-level row itself), which is the
same information because object identity determines the tree position. -/
structure FlatRow where
  objTop : Nat
  objChild : Option Nat
  level : Nat
  parent : Option Nat
deriving DecidableEq, Repr

def defaultFlatRow : FlatRow := ⟨0, none, 0, none⟩

/-- The per-frame flattening loop (`interactive_menu`, lines 130-135):
each top-level item produces a level-0 row immediately followed by one
level-1 row per child, carrying a back-link to the parent.  The index
argument records the position of the first item. -/
def flattenFrom : Nat → List MenuItem → List FlatRow
  | _, [] => []
  | i, it :: rest =>
      FlatRow.mk i none 0 none
        :: ((List.range it.children.length).map fun j => FlatRow.mk i (some j) 1 (some i))
        ++ flattenFrom (i + 1) rest

def flatten (options : List MenuItem) : List FlatRow :=
  flattenFrom 0 options

/-- Resolve a flat row back to the item it references. -/
def rowObj (options : List MenuItem) (r : FlatRow) : Option MenuItem :=
  match r.objChild with
  | none => options.get? r.objTop
  | some j => (options.get? r.objTop).bind fun it => it.children.get? j

def rowObjD (options : List MenuItem) (r : FlatRow) : MenuItem :=
  (rowObj options r).getD defaultMenuItem

/-- `_is_selectable`: `bool(getattr(item, "selectable", True))`. -/
def isSelectableRow (options : List MenuItem) (r : FlatRow) : Bool :=
  match rowObj options r with
  | some it => it.selectable
  | none => true

/-- Loop body of `_find_next_selectable`: the fuel is the `range(total)`
bound, the index argument is the running `idx`. -/
def findNextSelectableAux (options : List MenuItem) (rows : List FlatRow) (step : Int) :
    Nat → Int → Option Nat
  | 0, _ => none
  | fuel + 1, idx =>
      if isSelectableRow options
          (rows.getD ((idx + step) % (rows.length : Int)).toNat defaultFlatRow) then
        some ((idx + step) % (rows.length : Int)).toNat
      else findNextSelectableAux options rows step fuel ((idx + step) % (rows.length : Int))

/-- `_find_next_selectable(flat_rows, start_idx, step)` (lines 86-95). -/
def findNextSelectable (options : List MenuItem) (rows : List FlatRow)
    (startIdx : Nat) (step : Int) : Option Nat :=
  if rows.length = 0 then none
  else findNextSelectableAux options rows step rows.length
    ((startIdx : Int) % (rows.length : Int))

/-- The viewport of one frame: `max_visible_items`, `start_row`, `end_row`. -/
structure Viewport where
  maxVisible : Nat
  startRow : Nat
  endRow : Nat
deriving DecidableEq, Repr

/-- Viewport computation of lines 164-173.  Python `max(0, a - b)` on
integers coincides with truncated natural subtraction. -/
def viewportCalc (termHeight total cur : Nat) : Viewport :=
  let reservedLines := 15
  let maxVisibleItems := max 5 (termHeight - reservedLines)
  let halfView := maxVisibleItems / 2
  let startRow := cur - halfView
  let endRow := startRow + maxVisibleItems
  if endRow > total then
    ⟨maxVisibleItems, total - maxVisibleItems, total⟩
  else
    ⟨maxVisibleItems, startRow, endRow⟩

/-- The `collect` closure used by both the footer counter (line 229) and
multi-select ENTER (line 361): pre-order walk appending every item whose
`is_selected` is true. -/
def collectSelected : List MenuItem → List MenuItem
  | [] => []
  | MenuItem.mk l d s sel ch :: rest =>
      (if sel then [MenuItem.mk l d s sel ch] else [])
        ++ collectSelected ch ++ collectSelected rest

/-- Pre-order (declaration-order) traversal of an item tree; used only to
state properties, the engine itself uses `collectSelected`. -/
def preorder : List MenuItem → List MenuItem
  | [] => []
  | MenuItem.mk l d s sel ch :: rest =>
      MenuItem.mk l d s sel ch :: preorder ch ++ preorder rest

def MenuItem.toggleSel : MenuItem → MenuItem
  | .mk l d s sel ch => .mk l d s (!sel) ch

def listModify (f : α → α) : Nat → List α → List α
  | _, [] => []
  | 0, a :: rest => f a :: rest
  | n + 1, a :: rest => a :: listModify f n rest

def toggleChild (j : Nat) : MenuItem → MenuItem
  | .mk l d s sel ch => .mk l d s sel (listModify MenuItem.toggleSel j ch)

/-- `item.is_selected = not item.is_selected` on the item referenced by a row. -/
def toggleAt (options : List MenuItem) (r : FlatRow) : List MenuItem :=
  match r.objChild with
  | none => listModify MenuItem.toggleSel r.objTop options
  | some j => listModify (toggleChild j) r.objTop options

/-- The cursor-memory dictionary; lookups scan from the front so consing
an entry models a dict update. -/
def Store := List (String × Nat)

def storeFind (store : Store) (m : String) : Option Nat :=
  ((List.find? (fun p => p.1 == m) store)).map (fun p => p.2)

def storeGet (store : Store) (m : String) : Nat :=
  (storeFind store m).getD 0

def storeSet (store : Store) (m : String) (v : Nat) : Store :=
  (m, v) :: store

/-- `for ... if p(r): return i` over a row list: index of the first match. -/
def findFirstIdx (p : FlatRow → Bool) : List FlatRow → Option Nat
  | [] => none
  | r :: rest => if p r then some 0 else (findFirstIdx p rest).map (· + 1)

def natIndexOf (x : Nat) : List Nat → Option Nat
  | [] => none
  | a :: rest => if a = x then some 0 else (natIndexOf x rest).map (· + 1)

/-- `_persist_cursor(flat_rows, row_index)` (lines 105-119): store the
(wrapped) cursor index under the menu id; when the cursor sits on a child
row, store the index of the parent's level-0 row instead
(`candidate.get("obj") == parent and candidate.get("level") == 0`). -/
def persistCursor (menuId : Option String) (store : Store) (rows : List FlatRow)
    (rowIndex : Nat) : Store :=
  match menuId with
  | none => store
  | some m =>
      if rows.length = 0 then store
      else
        let safeIndex := rowIndex % rows.length
        let row := rows.getD safeIndex defaultFlatRow
        if row.level > 0 then
          match row.parent with
          | some p =>
              match findFirstIdx
                  (fun c => c.objTop == p && c.objChild == none && c.level == 0) rows with
              | some idx => storeSet store m idx
              | none => storeSet store m safeIndex
          | none => storeSet store m safeIndex
        else storeSet store m safeIndex

/-- Parameters of one `interactive_menu` invocation that the verified
claims depend on.  `termHeight` models `shutil_module.get_terminal_size().lines`
(a constant 24 when `shutil_module` is absent); `getDesc` models
`get_item_description_fn`; `headerLines` models the (static) output of
`header_func`. -/
structure Style where
  SELECTED : String
  ENDC : String
  DIM : String
  BOLD : String

structure MenuParams where
  style : Style
  multiSelect : Bool
  menuId : Option String
  termHeight : Nat
  headerLines : List String
  infoText : String
  navHint : Bool
  leftMargin : Nat
  navHintText : Option String
  subNavHintText : Option String
  footerHintText : Option String
  getDesc : MenuItem → String

/-- The unified logical key alphabet produced by `read_key`. -/
inductive MKey : Type where
  | UP | DOWN | LEFT | RIGHT | ENTER | SPACE | ESC
deriving DecidableEq, Repr

/-- One interaction of the loop with the outside world: either
`read_key_fn` yields a key (or `None`), or some callback invoked during
the frame (header, `read_key_fn` itself, `get_item_description_fn`, a
`dynamic_label`, Ctrl-C as `KeyboardInterrupt`) raises. -/
inductive KeyEv : Type where
  | press : Option MKey → KeyEv
  | raise : KeyEv
deriving DecidableEq, Repr

inductive MenuResult : Type where
  | itemR : MenuItem → MenuResult
  | itemsR : List MenuItem → MenuResult
  | noSelection : MenuResult
  | outOfKeys : MenuResult
  | thrown : MenuResult
  | diverged : MenuResult

def MenuResult.isThrown : MenuResult → Bool
  | .thrown => true
  | _ => false

/-- Snapshot of the state at which a frame is painted and a key is read. -/
structure Frame where
  opts : List MenuItem
  rows : List FlatRow
  cur : Nat
  sub : Bool
  vp : Viewport

structure RunOut where
  result : MenuResult
  frames : List Frame
  store : Store
  remaining : List KeyEv

/-- `if menu_id: cursor_memory[menu_id] = 0` on the two early exits. -/
def storeZero (menuId : Option String) (store : Store) : Store :=
  match menuId with
  | some m => storeSet store m 0
  | none => store

/-- Cursor normalisation at the top of each loop iteration (lines 141,
148-152): wrap modulo the row count, and when the resulting row is not
selectable advance forward to the next selectable row. -/
def normalizeCursor (options : List MenuItem) (rows : List FlatRow) (cur : Nat) :
    Option Nat :=
  if rows.length = 0 then none
  else if isSelectableRow options (rows.getD (cur % rows.length) defaultFlatRow) then
    some (cur % rows.length)
  else findNextSelectable options rows (cur % rows.length) 1

inductive FrameRes : Type where
  | exitNone : Store → FrameRes
  | frame : List FlatRow → Nat → Viewport → FrameRes

/-- Lines 130-175 of the loop: rebuild `flat_rows`; return `None` at once
(resetting the remembered cursor to 0) when the row list is empty or no
row is selectable; otherwise normalise the cursor and compute the
viewport.  The unreachable `_find_next_selectable = None` branch returns
`None` without touching the store, as in the source. -/
def stepFrame (P : MenuParams) (options : List MenuItem) (cur : Nat) (store : Store) :
    FrameRes :=
  let rows := flatten options
  if rows.length = 0 then .exitNone (storeZero P.menuId store)
  else if !(rows.any fun r => isSelectableRow options r) then
    .exitNone (storeZero P.menuId store)
  else
    match normalizeCursor options rows cur with
    | none => .exitNone store
    | some cur2 => .frame rows cur2 (viewportCalc P.termHeight rows.length cur2)

/-- `[i for i, r in enumerate(flat_rows) if r.get("parent") == current_parent]`. -/
def sibIndices (rows : List FlatRow) (p : Nat) : List Nat :=
  (List.range rows.length).filter fun i => (rows.getD i defaultFlatRow).parent == some p

/-- Sub-navigation sibling move: `siblings[(siblings.index(cur) ± 1) % len]`.
`delta` is the wrapped offset to add to the relative index.  The DOWN
branch of the source has no try/except around `.index`, but the cursor is
always a member of its own sibling list, so the missing-index case (a
no-op here, a `ValueError` there) is unreachable either way. -/
def sibMove (rows : List FlatRow) (cur : Nat) (p : Nat) (delta : Nat) : Nat :=
  let siblings := sibIndices rows p
  if siblings.length = 0 then cur
  else
    match natIndexOf cur siblings with
    | some relIdx => siblings.getD ((relIdx + delta) % siblings.length) cur
    | none => cur

/-- The `while` search of top-level UP/DOWN (lines 305-308, 320-323):
keep stepping while the candidate row is nested or not selectable.  The
Python loop diverges when no level-0 selectable row exists; the fuel
bound of one full cycle returns `none` exactly then. -/
def findTopSelectableAux (options : List MenuItem) (rows : List FlatRow)
    (stepFn : Nat → Nat) : Nat → Nat → Option Nat
  | 0, _ => none
  | fuel + 1, idx =>
      if (rows.getD idx defaultFlatRow).level > 0
          || !(isSelectableRow options (rows.getD idx defaultFlatRow)) then
        findTopSelectableAux options rows stepFn fuel (stepFn idx)
      else some idx

def decWrap (total : Nat) (n : Nat) : Nat := (n + total - 1) % total

def incWrap (total : Nat) (n : Nat) : Nat := (n + 1) % total

/-- `for i, r in enumerate(flat_rows): if r["level"] == 1 and r.get("parent") == item:
current_row = i; break` — cursor entering sub-navigation. -/
def enterSubCursor (rows : List FlatRow) (top : Nat) (cur : Nat) : Nat :=
  match findFirstIdx (fun r => r.level == 1 && r.parent == some top) rows with
  | some i => i
  | none => cur

inductive KeyRes : Type where
  | ret : MenuResult → Store → KeyRes
  | cont : List MenuItem → Nat → Bool → Store → KeyRes
  | diverge : KeyRes

/-- The key dispatch of lines 292-395, acting on the normalised cursor of
the current frame.  `cont` carries the next (options, cursor, sub-nav,
store) state; `ret` ends the invocation. -/
def applyKey (P : MenuParams) (options : List MenuItem) (rows : List FlatRow)
    (cur : Nat) (sub : Bool) (store : Store) (k : Option MKey) : KeyRes :=
  match k with
  | some MKey.UP =>
      if sub then
        match (rows.getD cur defaultFlatRow).parent with
        | some p => .cont options (sibMove rows cur p (sibIndices rows p).length.pred) sub store
        | none => .cont options cur sub store
      else
        match findTopSelectableAux options rows (decWrap rows.length) rows.length
            (decWrap rows.length cur) with
        | some n => .cont options n sub store
        | none => .diverge
  | some MKey.DOWN =>
      if sub then
        match (rows.getD cur defaultFlatRow).parent with
        | some p => .cont options (sibMove rows cur p 1) sub store
        | none => .cont options cur sub store
      else
        match findTopSelectableAux options rows (incWrap rows.length) rows.length
            (incWrap rows.length cur) with
        | some n => .cont options n sub store
        | none => .diverge
  | some MKey.SPACE =>
      let row := rows.getD cur defaultFlatRow
      let item := rowObjD options row
      if P.multiSelect then
        if row.level = 0 then
          if !item.children.isEmpty then
            .cont options (enterSubCursor rows row.objTop cur) true store
          else .cont (toggleAt options row) cur sub store
        else .cont (toggleAt options row) cur sub store
      else
        if row.level = 0 && !item.children.isEmpty then
          .cont options (enterSubCursor rows row.objTop cur) true store
        else .cont options cur sub store
  | some MKey.ENTER =>
      let row := rows.getD cur defaultFlatRow
      let item := rowObjD options row
      if !(isSelectableRow options row) then .cont options cur sub store
      else if P.multiSelect then
        .ret (.itemsR (collectSelected options)) (persistCursor P.menuId store rows cur)
      else if row.level = 0 && !item.children.isEmpty && !sub then
        .cont options (enterSubCursor rows row.objTop cur) true store
      else
        .ret (.itemR item) (persistCursor P.menuId store rows cur)
  | some MKey.ESC =>
      if sub then
        let row := rows.getD cur defaultFlatRow
        let cur2 :=
          if row.level > 0 then
            match row.parent with
            | some p =>
                match findFirstIdx (fun r => r.objTop == p && r.objChild == none) rows with
                | some i => i
                | none => cur
            | none => cur
          else cur
        .cont options cur2 false store
      else
        .ret .noSelection (persistCursor P.menuId store rows cur)
  | some MKey.LEFT => .cont options cur sub store
  | some MKey.RIGHT => .cont options cur sub store
  | none => .cont options cur sub store

/-- The `while True` render/input loop.  Each iteration paints a frame
(recorded in `frames`), then consumes one event; when the event list is
exhausted the run ends with `outOfKeys` (the real loop would block on
`read_key_fn`), and a `raise` event ends it with `thrown` (the exception
propagates through the `finally`). -/
def menuLoop (P : MenuParams) (options : List MenuItem) (cur : Nat) (sub : Bool)
    (store : Store) : List KeyEv → RunOut
  | [] =>
      match stepFrame P options cur store with
      | .exitNone store2 => ⟨.noSelection, [], store2, []⟩
      | .frame rows cur2 vp => ⟨.outOfKeys, [⟨options, rows, cur2, sub, vp⟩], store, []⟩
  | ev :: rest =>
      match stepFrame P options cur store with
      | .exitNone store2 => ⟨.noSelection, [], store2, ev :: rest⟩
      | .frame rows cur2 vp =>
          let fr : Frame := ⟨options, rows, cur2, sub, vp⟩
          match ev with
          | .raise => ⟨.thrown, [fr], store, rest⟩
          | .press k =>
              match applyKey P options rows cur2 sub store k with
              | .ret r store2 => ⟨r, [fr], store2, rest⟩
              | .diverge => ⟨.diverged, [fr], store, rest⟩
              | .cont options2 cur3 sub2 store2 =>
                  let out := menuLoop P options2 cur3 sub2 store2 rest
                  ⟨out.result, fr :: out.frames, out.store, out.remaining⟩

/-- `interactive_menu` entry: the initial cursor comes from the cursor
memory when a `menu_id` is supplied (line 79), sub-navigation starts off. -/
def interactiveMenu (P : MenuParams) (options : List MenuItem) (store : Store)
    (evs : List KeyEv) : RunOut :=
  menuLoop P options (match P.menuId with | some m => storeGet store m | none => 0)
    false store evs

section Rendering

def padRight (s : String) (w : Nat) : String :=
  s ++ "".pushn ' ' (w - s.length)

def marginOf (P : MenuParams) : String := "".pushn ' ' P.leftMargin

def dividerOf (P : MenuParams) : String := marginOf P ++ "".pushn '─' 79

/-- The dynamic block of one frame, exactly the strings pushed into
`dynamic_lines` in lines 178-240: scroll marker above, visible row slice,
scroll marker below, divider, optional description line, divider, footer.
Dynamic labels (used only by `MenuSeparator`) are outside the model, so
every rendered label is the plain `label` attribute. -/
def dynamicLines (P : MenuParams) (fr : Frame) : List String :=
  let margin := marginOf P
  let divider := dividerOf P
  let rows := fr.rows
  let cur := fr.cur
  let vp := fr.vp
  let curLevel := (rows.getD cur defaultFlatRow).level
  let top :=
    if vp.startRow > 0 then
      let hiddenAbove := ((rows.take vp.startRow).filter fun r => r.level == curLevel).length
      let msg := if hiddenAbove > 0 then "▲ (" ++ toString hiddenAbove ++ ") ▲" else "▲"
      [margin ++ P.style.DIM ++ msg ++ P.style.ENDC]
    else [margin]
  let slice := (rows.drop vp.startRow).take (vp.endRow - vp.startRow)
  let body := slice.enum.map fun pr =>
    let idx := vp.startRow + pr.1
    let row := pr.2
    let isSelectedRow := idx == cur && isSelectableRow fr.opts (rows.getD idx defaultFlatRow)
    let item := rowObjD fr.opts row
    let checkbox :=
      if P.multiSelect then (if item.is_selected then "[x] " else "[ ] ") else ""
    let pointer := if isSelectedRow then ">" else " "
    let indent := "".pushn ' ' (4 * row.level)
    let suffix := if row.level == 0 && !item.children.isEmpty then " >" else ""
    let lineContent := pointer ++ " " ++ indent ++ checkbox ++ item.label ++ suffix
    if isSelectedRow then
      margin ++ P.style.SELECTED ++ padRight lineContent 60 ++ P.style.ENDC
    else margin ++ lineContent
  let bottom :=
    if vp.endRow < rows.length then
      let hiddenBelow := ((rows.drop vp.endRow).filter fun r => r.level == curLevel).length
      let msg := if hiddenBelow > 0 then "▼ (" ++ toString hiddenBelow ++ ") ▼" else "▼"
      [margin ++ P.style.DIM ++ msg ++ P.style.ENDC]
    else [margin]
  let selectedDescription := P.getDesc (rowObjD fr.opts (rows.getD cur defaultFlatRow))
  let descLines :=
    if selectedDescription ≠ "" then
      [margin ++ P.style.DIM ++ "Descripción: " ++ selectedDescription ++ P.style.ENDC]
    else []
  let footer :=
    if P.multiSelect then
      margin ++ P.style.BOLD ++ "[ENTER]: Confirmar selección ("
        ++ toString (collectSelected fr.opts).length ++ " elementos)." ++ P.style.ENDC
    else
      margin ++ P.style.BOLD ++ (P.footerHintText.getD "[ENTER]: Seleccionar opción.")
        ++ P.style.ENDC
  top ++ body ++ bottom ++ [divider] ++ descLines ++ [divider, footer]

/-- The static shape signature of lines 243-250. -/
structure StaticSig where
  showHint : Bool
  hasInfo : Bool
  navHint : Bool
  inSubNav : Bool
  navHintText : String
  subNavHintText : String
deriving DecidableEq

def staticSig (P : MenuParams) (sub : Bool) : StaticSig :=
  ⟨P.infoText ≠ "" || P.navHint, P.infoText ≠ "", P.navHint, sub,
    P.navHintText.getD "", P.subNavHintText.getD ""⟩

/-- The static block printed on a full repaint (lines 258-273): header
output, then the hint section when info text or the nav hint is enabled. -/
def staticLines (P : MenuParams) (sub : Bool) : List String :=
  let margin := marginOf P
  let divider := dividerOf P
  let showHintSection := P.infoText ≠ "" || P.navHint
  P.headerLines ++
    (if showHintSection then
      [divider]
        ++ (if P.infoText ≠ "" then [margin ++ P.infoText] else [])
        ++ (if P.navHint then
              let hintText :=
                if sub then
                  P.subNavHintText.getD
                    "[SUB-NAV] Arriba/Abajo: Navegar cuantizaciones, ENTER: Seleccionar, ESC: Volver."
                else
                  P.navHintText.getD
                    "Arriba/Abajo: Navegar, SPACE/ENTER: Seleccionar/Entrar, ESC: Volver."
              [margin ++ P.style.DIM ++ hintText ++ P.style.ENDC]
            else [])
        ++ [divider]
    else [])

/-- Terminal model: the screen as a list of lines plus the cursor row.
`print("\x1b[2K" + line)` clears and rewrites the cursor line and moves
down; `"\x1b[{n}F"` moves the cursor up `n` lines (clamped at the top);
clearing the screen empties it and homes the cursor. -/
structure Term where
  lines : List String
  row : Nat
deriving DecidableEq, Repr

def termClear : Term := ⟨[], 0⟩

def listSetOrExtend (l : List String) (i : Nat) (s : String) : List String :=
  if i < l.length then l.set i s
  else l ++ List.replicate (i - l.length) "" ++ [s]

def termWriteLine (t : Term) (s : String) : Term :=
  ⟨listSetOrExtend t.lines t.row s, t.row + 1⟩

def termUp (t : Term) (n : Nat) : Term := ⟨t.lines, t.row - n⟩

/-- Render bookkeeping across frames: `static_rendered`,
`prev_dynamic_line_count`, `prev_static_signature`, `prev_term_height`. -/
structure RenderSt where
  staticRendered : Bool
  prevCount : Nat
  prevSig : Option StaticSig
  prevTermHeight : Option Nat
  term : Term

def renderInit : RenderSt := ⟨false, 0, none, none, termClear⟩

/-- One frame of terminal output (lines 154-162, 243-289), for either
repaint strategy: `useIncremental` is `repaint_strategy in ("auto",
"incremental")`.  On a full repaint the screen is cleared and the static
block rewritten; in incremental mode the cursor first moves up over the
previous dynamic block, every dynamic line is cleared and rewritten, and
surplus lines of a larger previous block are blanked. -/
def renderFrame (P : MenuParams) (useIncremental : Bool) (st : RenderSt) (fr : Frame) :
    RenderSt :=
  let st :=
    match st.prevTermHeight with
    | none => { st with prevTermHeight := some P.termHeight }
    | some h =>
        if h ≠ P.termHeight then
          { st with staticRendered := false, prevTermHeight := some P.termHeight }
        else st
  let sig := staticSig P fr.sub
  let st :=
    match st.prevSig with
    | none => { st with prevSig := some sig }
    | some s =>
        if s ≠ sig then { st with staticRendered := false, prevSig := some sig }
        else st
  let dyn := dynamicLines P fr
  let afterStatic :=
    if !useIncremental || !st.staticRendered then
      let t := (staticLines P fr.sub).foldl termWriteLine termClear
      if useIncremental then (t, true, 0) else (t, st.staticRendered, st.prevCount)
    else (st.term, st.staticRendered, st.prevCount)
  let t1 := afterStatic.1
  let sr := afterStatic.2.1
  let pc := afterStatic.2.2
  let t2 := if useIncremental && sr && pc > 0 then termUp t1 pc else t1
  let t3 := dyn.foldl termWriteLine t2
  let t4 :=
    if useIncremental && pc > dyn.length then
      (List.replicate (pc - dyn.length) "").foldl termWriteLine t3
    else t3
  { staticRendered := sr, prevCount := dyn.length, prevSig := st.prevSig,
    prevTermHeight := st.prevTermHeight, term := t4 }

/-- Replay the frames of a run through the renderer. -/
def renderRun (P : MenuParams) (useIncremental : Bool) (frames : List Frame) : RenderSt :=
  frames.foldl (renderFrame P useIncremental) renderInit

/-- Trailing blank lines are indistinguishable from absent lines on a
cleared screen; final screen contents are compared modulo them. -/
def dropTrailingEmpty (l : List String) : List String :=
  (l.reverse.dropWhile fun s => s == "").reverse

end Rendering

section TraceAndKeys

/-- Abstracted terminal control events of one invocation:
`"\x1b[?25l"` (hide cursor, line 121), the entry screen clear
(lines 123-126), one frame paint per loop iteration, a propagating
exception, and `"\x1b[?25h"` (show cursor) in the `finally` (line 397). -/
inductive TermEv : Type where
  | cursorHide | clearScr | framePaint | raised | cursorShow
deriving DecidableEq, Repr

/-- The terminal-control trace of a full invocation: hide and clear on
entry, then the loop, then — on every exit path, normal return, raised
exception, or interrupt, because of the `try/finally` — the cursor-show
sequence. -/
def menuTrace (P : MenuParams) (options : List MenuItem) (store : Store)
    (evs : List KeyEv) : List TermEv :=
  let out := interactiveMenu P options store evs
  TermEv.cursorHide :: TermEv.clearScr ::
    (out.frames.map fun _ => TermEv.framePaint)
    ++ (if out.result.isThrown then [TermEv.raised] else [])
    ++ [TermEv.cursorShow]

/-- Outcome of one `read_key` call (`setup_ui_io.read_key` /
`setup_env.read_key`): a unified key string, `None`, or a raised
`KeyboardInterrupt`. -/
inductive ReadKeyOut : Type where
  | key : String → ReadKeyOut
  | keyNone : ReadKeyOut
  | interrupt : ReadKeyOut
deriving DecidableEq, Repr

/-- `read_key(os_module, msvcrt_module)`: the byte-decoding path runs only
when `os_module.name == "nt"` and a `msvcrt` module is present; the input
byte stream models successive `msvcrt.getch()` results and the returned
list is what remains unconsumed.  On every other platform the function
returns `None` without reading anything. -/
def read_key (osName : String) (msvcrtPresent : Bool) (input : List Nat) :
    ReadKeyOut × List Nat :=
  if osName = "nt" && msvcrtPresent then
    let b := input.headD 0
    let rest := input.tail
    if b = 0xe0 then
      let b2 := rest.headD 0
      let rest2 := rest.tail
      if b2 = 72 then (.key "UP", rest2)
      else if b2 = 80 then (.key "DOWN", rest2)
      else if b2 = 75 then (.key "LEFT", rest2)
      else if b2 = 77 then (.key "RIGHT", rest2)
      else (.keyNone, rest2)
    else if b = 13 then (.key "ENTER", rest)
    else if b = 32 then (.key "SPACE", rest)
    else if b = 27 then (.key "ESC", rest)
    else if b = 3 then (.interrupt, rest)
    else (.keyNone, rest)
  else (.keyNone, input)

end TraceAndKeys

section SpecSideAndFixtures

/-- The viewport formula exactly as the specification words it, over
integers with explicit `max` clamps: `max_visible_items = max(5,
term_height - reserved_lines)` with `reserved_lines = 15`, cursor
centering, and the end-of-list clamp re-deriving `start`.  Stated
separately from `viewportCalc` (the source translation) so the two can
be compared. -/
def viewportSpecInt (termHeight total cur : Int) : Int × Int × Int :=
  let reservedLines : Int := 15
  let maxVisibleItems := max 5 (termHeight - reservedLines)
  let halfView := maxVisibleItems / 2
  let startRow := max 0 (cur - halfView)
  let endRow := startRow + maxVisibleItems
  if endRow > total then (maxVisibleItems, max 0 (total - maxVisibleItems), total)
  else (maxVisibleItems, startRow, endRow)

/-- Forward cyclic distance from `idx` to `j` on `len` positions (a full
cycle when `idx = j`); measures progress of the selectable-row search. -/
def cycDist (len idx j : Nat) : Nat :=
  if idx < j then j - idx else j + len - idx

/-- Concrete fixtures used by witnesses and the repaint counterexample. -/
def plainStyle : Style := ⟨"", "", "", ""⟩

def descOf : MenuItem → String := fun x => x.description

def singleParams : MenuParams :=
  ⟨plainStyle, false, some "menu", 24, [], "", true, 0, none, none, none, descOf⟩

def multiParams : MenuParams :=
  ⟨plainStyle, true, some "menu", 24, [], "", true, 0, none, none, none, descOf⟩

def bugParams : MenuParams :=
  ⟨plainStyle, false, none, 24, [], "", false, 0, none, none, none, descOf⟩

def leaf (l : String) : MenuItem := .mk l "" true false []

def leafSel (l : String) : MenuItem := .mk l "" true true []

def staticRow (l : String) : MenuItem := .mk l "" false false []

def parentItem (l : String) (ch : List MenuItem) : MenuItem := .mk l "" true false ch

def demoTree : List MenuItem :=
  [leaf "A", parentItem "B" [leafSel "b0", leaf "b1"], leafSel "C"]

def unselectableTree : List MenuItem := [staticRow "s0", staticRow "s1"]

def bugOptions : List MenuItem :=
  [MenuItem.mk "Opcion A" "descA" true false [], MenuItem.mk "Opcion B" "" true false []]

def bugEvents : List KeyEv :=
  [.press (some .DOWN), .press (some .DOWN), .press (some .ESC)]

/-- Cursor memory left behind by a first invocation of the demo menu that
ends by confirming the item at flat index 4. -/
def resumeStore : Store :=
  (interactiveMenu singleParams demoTree []
    [.press (some .DOWN), .press (some .DOWN), .press (some .ENTER)]).store

end SpecSideAndFixtures

/-! ### Lemmas about flattening -/

theorem drop_append_len (a b : List α) (k : Nat) : (a ++ b).drop (a.length + k) = b.drop k := by
  induction a with
  | nil => simp
  | cons x xs ih => simp [Nat.succ_add, ih]

theorem flattenFrom_cons (n : Nat) (it : MenuItem) (rest : List MenuItem) :
    flattenFrom n (it :: rest)
      = FlatRow.mk n none 0 none
          :: ((List.range it.children.length).map fun j => FlatRow.mk n (some j) 1 (some n))
          ++ flattenFrom (n + 1) rest := by
  rfl

/-- Flattening distributes over list concatenation, shifting the index. -/
theorem flattenFrom_append (a b : List MenuItem) :
    ∀ n, flattenFrom n (a ++ b) = flattenFrom n a ++ flattenFrom (n + a.length) b := by
  induction a with
  | nil => intro n; simp [flattenFrom]
  | cons it rest ih =>
      intro n
      rw [List.cons_append, flattenFrom_cons, flattenFrom_cons, ih (n + 1)]
      have hn : n + 1 + rest.length = n + (it :: rest).length := by
        simp only [List.length_cons]; omega
      rw [hn]
      simp [List.append_assoc]

/-- The contiguous segment of the flat list belonging to the `i`-th item:
its level-0 row immediately followed by its level-1 child rows. -/
theorem flattenFrom_segment (l : List MenuItem) (n i : Nat) (h : i < l.length) :
    ((flattenFrom n l).drop ((flattenFrom n (l.take i)).length)).take
        (1 + (l.getD i defaultMenuItem).children.length)
      = FlatRow.mk (n + i) none 0 none
          :: (List.range (l.getD i defaultMenuItem).children.length).map
              (fun j => FlatRow.mk (n + i) (some j) 1 (some (n + i))) := by
  have hget : l.getD i defaultMenuItem = l[i] := List.getD_eq_getElem l defaultMenuItem h
  have hdrop : l.drop i = l[i] :: l.drop (i + 1) := List.drop_eq_getElem_cons h
  have hsplit : flattenFrom n l
      = flattenFrom n (l.take i) ++ flattenFrom (n + (l.take i).length) (l.drop i) := by
    conv_lhs => rw [← List.take_append_drop i l]
    exact flattenFrom_append (l.take i) (l.drop i) n
  have hlen : (l.take i).length = i := by
    simp [List.length_take]; omega
  rw [hsplit]
  have hd := drop_append_len (flattenFrom n (l.take i))
    (flattenFrom (n + (l.take i).length) (l.drop i)) 0
  rw [Nat.add_zero] at hd
  rw [hd, List.drop_zero, hlen, hdrop, flattenFrom_cons, Nat.add_comm 1,
    List.cons_append, List.take_succ_cons, hget, List.take_left' (by simp)]

theorem flatten_nil_iff (l : List MenuItem) : flatten l = [] ↔ l = [] := by
  cases l with
  | nil => simp [flatten, flattenFrom]
  | cons it rest => simp [flatten, flattenFrom_cons]

/-- Claim C5: for list-of-items trees of depth at most one, the flat row
list rebuilt each frame preserves declaration order — the `i`-th item
contributes a level-0 row immediately followed by one level-1 row per
child, each with a back-link to the parent, the segment sitting exactly
after the flattening of the first `i` items — and the flat list is empty
iff the input list is empty. -/
theorem claim_C5_flatten_order :
    (∀ l : List MenuItem, (flatten l = [] ↔ l = []))
    ∧ (∀ (l : List MenuItem) (i : Nat), i < l.length →
        ((flatten l).drop ((flatten (l.take i)).length)).take
            (1 + (l.getD i defaultMenuItem).children.length)
          = FlatRow.mk i none 0 none
              :: (List.range (l.getD i defaultMenuItem).children.length).map
                  (fun j => FlatRow.mk i (some j) 1 (some i))) := by
  refine ⟨flatten_nil_iff, fun l i h => ?_⟩
  simpa using flattenFrom_segment l 0 i h

/-! ### The multi-select snapshot -/

/-- The engine's `collect` closure gathers exactly the pre-order
(declaration-order) selected items. -/
theorem collect_eq_filter (l : List MenuItem) :
    collectSelected l = (preorder l).filter (fun x => x.is_selected) := by
  match l with
  | [] => simp [collectSelected, preorder]
  | MenuItem.mk a d s sel ch :: rest =>
      have ih1 := collect_eq_filter ch
      have ih2 := collect_eq_filter rest
      simp only [collectSelected, preorder, List.filter_cons, List.filter_append, ih1, ih2]
      cases sel <;> simp [MenuItem.is_selected]

/-! ### The selectable-cursor search -/

theorem findNextSelectableAux_some (options : List MenuItem) (rows : List FlatRow)
    (step : Int) (hlen : 0 < rows.length) :
    ∀ (fuel : Nat) (idx : Int) (i : Nat),
      findNextSelectableAux options rows step fuel idx = some i →
      i < rows.length ∧ isSelectableRow options (rows.getD i defaultFlatRow) = true := by
  intro fuel
  induction fuel with
  | zero => intro idx i h; simp [findNextSelectableAux] at h
  | succ fuel ih =>
      intro idx i h
      simp only [findNextSelectableAux] at h
      split at h
      · rename_i hsel
        cases h
        refine ⟨?_, hsel⟩
        have hne : (rows.length : Int) ≠ 0 := by exact_mod_cast hlen.ne'
        have h0 : (0 : Int) ≤ (idx + step) % (rows.length : Int) := Int.emod_nonneg _ hne
        have h1 : (idx + step) % (rows.length : Int) < (rows.length : Int) :=
          Int.emod_lt_of_pos _ (by exact_mod_cast hlen)
        omega
      · exact ih _ i h

theorem findNextSelectableAux_finds (options : List MenuItem) (rows : List FlatRow)
    (j : Nat) (hj : j < rows.length)
    (hsel : isSelectableRow options (rows.getD j defaultFlatRow) = true) :
    ∀ (fuel : Nat) (idx : Nat), idx < rows.length →
      1 ≤ cycDist rows.length idx j → cycDist rows.length idx j ≤ fuel →
      (findNextSelectableAux options rows 1 fuel (idx : Int)).isSome = true := by
  intro fuel
  induction fuel with
  | zero =>
      intro idx hidx h1 h2
      omega
  | succ fuel ih =>
      intro idx hidx h1 h2
      have hlen : 0 < rows.length := Nat.lt_of_le_of_lt (Nat.zero_le idx) hidx
      simp only [findNextSelectableAux]
      by_cases hlt : idx + 1 < rows.length
      · have hmod : ((idx : Int) + 1) % (rows.length : Int) = ((idx + 1 : Nat) : Int) := by
          rw [Int.emod_eq_of_lt (by omega) (by exact_mod_cast hlt)]
          omega
        rw [hmod]
        by_cases hseln :
            isSelectableRow options
              (rows.getD ((((idx + 1 : Nat) : Int)).toNat) defaultFlatRow) = true
        · rw [if_pos hseln]; simp
        · rw [if_neg hseln]
          have htn : (((idx + 1 : Nat) : Int)).toNat = idx + 1 := by omega
          rw [htn] at hseln
          have hne : j ≠ idx + 1 := by
            intro he; rw [he] at hsel; exact hseln hsel
          have hd1 : 1 ≤ cycDist rows.length (idx + 1) j := by
            unfold cycDist at h1 h2 ⊢; split_ifs at h1 h2 ⊢ <;> omega
          have hd2 : cycDist rows.length (idx + 1) j ≤ fuel := by
            unfold cycDist at h1 h2 ⊢; split_ifs at h1 h2 ⊢ <;> omega
          exact ih (idx + 1) hlt hd1 hd2
      · have hidx1 : idx + 1 = rows.length := by omega
        have hmod : ((idx : Int) + 1) % (rows.length : Int) = ((0 : Nat) : Int) := by
          have hc : ((idx : Int) + 1) = (rows.length : Int) := by exact_mod_cast hidx1
          rw [hc, Int.emod_self]
          rfl
        rw [hmod]
        by_cases hseln :
            isSelectableRow options (rows.getD (((0 : Nat) : Int)).toNat defaultFlatRow) = true
        · rw [if_pos hseln]; simp
        · rw [if_neg hseln]
          have htn : (((0 : Nat) : Int)).toNat = 0 := rfl
          rw [htn] at hseln
          have hne : j ≠ 0 := by
            intro he; rw [he] at hsel; exact hseln hsel
          have hd1 : 1 ≤ cycDist rows.length 0 j := by
            unfold cycDist at h1 h2 ⊢; split_ifs at h1 h2 ⊢ <;> omega
          have hd2 : cycDist rows.length 0 j ≤ fuel := by
            unfold cycDist at h1 h2 ⊢; split_ifs at h1 h2 ⊢ <;> omega
          exact ih 0 hlen hd1 hd2

theorem findNextSelectable_isSome (options : List MenuItem) (rows : List FlatRow)
    (cur1 : Nat) (hcur : cur1 < rows.length)
    (hnot : isSelectableRow options (rows.getD cur1 defaultFlatRow) = false)
    (hex : (rows.any fun r => isSelectableRow options r) = true) :
    (findNextSelectable options rows cur1 1).isSome = true := by
  have hlen : 0 < rows.length := Nat.lt_of_le_of_lt (Nat.zero_le cur1) hcur
  obtain ⟨r, hr, hrsel⟩ := List.any_eq_true.mp hex
  obtain ⟨j, hjlt, hjr⟩ := List.mem_iff_getElem.mp hr
  have hjsel : isSelectableRow options (rows.getD j defaultFlatRow) = true := by
    rw [List.getD_eq_getElem rows defaultFlatRow hjlt, hjr]; exact hrsel
  have hne : j ≠ cur1 := by
    intro he; rw [he, hnot] at hjsel; simp at hjsel
  unfold findNextSelectable
  rw [if_neg (by omega)]
  have hmod : ((cur1 : Nat) : Int) % (rows.length : Int) = ((cur1 : Nat) : Int) :=
    Int.emod_eq_of_lt (by omega) (by exact_mod_cast hcur)
  rw [hmod]
  refine findNextSelectableAux_finds options rows j hjlt hjsel rows.length cur1 hcur ?_ ?_
  · unfold cycDist; split_ifs <;> omega
  · unfold cycDist; split_ifs <;> omega

theorem normalizeCursor_some (options : List MenuItem) (rows : List FlatRow)
    (cur i : Nat) (h : normalizeCursor options rows cur = some i) :
    i < rows.length ∧ isSelectableRow options (rows.getD i defaultFlatRow) = true := by
  unfold normalizeCursor at h
  split at h
  · exact absurd h (by simp)
  · rename_i hlen
    split at h
    · rename_i hsel
      cases h
      exact ⟨Nat.mod_lt _ (by omega), hsel⟩
    · unfold findNextSelectable at h
      rw [if_neg hlen] at h
      exact findNextSelectableAux_some options rows 1 (by omega) _ _ i h

theorem normalizeCursor_isSome (options : List MenuItem) (rows : List FlatRow)
    (cur : Nat) (hlen : rows.length ≠ 0)
    (hex : (rows.any fun r => isSelectableRow options r) = true) :
    ∃ i, normalizeCursor options rows cur = some i := by
  unfold normalizeCursor
  rw [if_neg hlen]
  split
  · exact ⟨_, rfl⟩
  · rename_i hnot
    have := findNextSelectable_isSome options rows (cur % rows.length)
      (Nat.mod_lt _ (by omega)) (by simpa using hnot) hex
    exact Option.isSome_iff_exists.mp this

theorem normalizeCursor_selectable_id (options : List MenuItem) (rows : List FlatRow)
    (cur : Nat) (hlen : rows.length ≠ 0) (hcur : cur < rows.length)
    (hsel : isSelectableRow options (rows.getD cur defaultFlatRow) = true) :
    normalizeCursor options rows cur = some cur := by
  unfold normalizeCursor
  rw [if_neg hlen, Nat.mod_eq_of_lt hcur, if_pos hsel]

/-! ### Frame-step lemmas and the per-frame invariant -/

theorem stepFrame_frame_inv (P : MenuParams) (options : List MenuItem) (cur : Nat)
    (store : Store) (rows : List FlatRow) (cur2 : Nat) (vp : Viewport)
    (h : stepFrame P options cur store = .frame rows cur2 vp) :
    rows = flatten options ∧ normalizeCursor options rows cur = some cur2
      ∧ cur2 < rows.length
      ∧ isSelectableRow options (rows.getD cur2 defaultFlatRow) = true
      ∧ vp = viewportCalc P.termHeight rows.length cur2 := by
  simp only [stepFrame] at h
  split at h
  · cases h
  · split at h
    · cases h
    · cases hnorm : normalizeCursor options (flatten options) cur with
      | none => rw [hnorm] at h; cases h
      | some c =>
          rw [hnorm] at h
          cases h
          obtain ⟨hlt, hsel⟩ := normalizeCursor_some options (flatten options) cur _ hnorm
          exact ⟨rfl, hnorm, hlt, hsel, rfl⟩

theorem stepFrame_total (P : MenuParams) (options : List MenuItem) (cur : Nat)
    (store : Store) (hlen : (flatten options).length ≠ 0)
    (hex : ((flatten options).any fun r => isSelectableRow options r) = true) :
    ∃ cur2, stepFrame P options cur store
        = .frame (flatten options) cur2
            (viewportCalc P.termHeight (flatten options).length cur2)
      ∧ normalizeCursor options (flatten options) cur = some cur2 := by
  obtain ⟨cur2, hnorm⟩ := normalizeCursor_isSome options (flatten options) cur hlen hex
  refine ⟨cur2, ?_, hnorm⟩
  simp only [stepFrame, hex]
  rw [if_neg hlen]
  simp only [Bool.not_true, Bool.false_eq_true, if_false]
  rw [hnorm]

theorem viewportCalc_inv (termHeight total cur : Nat) (h : cur < total) :
    (viewportCalc termHeight total cur).startRow ≤ cur
    ∧ cur < (viewportCalc termHeight total cur).endRow
    ∧ (total ≤ (viewportCalc termHeight total cur).maxVisible →
        (viewportCalc termHeight total cur).startRow = 0
        ∧ (viewportCalc termHeight total cur).endRow = total) := by
  have h5 : 5 ≤ max 5 (termHeight - 15) := Nat.le_max_left _ _
  simp only [viewportCalc]
  split <;> dsimp only <;> omega

/-- Claim C3: at every frame of the loop — the state in which a key is
read — the cursor indexes a selectable flat row, is in range, and the
viewport window contains it (`start_row ≤ current_row < end_row`), the
window spanning all rows whenever they all fit. -/
theorem claim_C3_frame_invariant :
    ∀ (evs : List KeyEv) (P : MenuParams) (options : List MenuItem) (cur : Nat)
      (sub : Bool) (store : Store) (f : Frame),
      f ∈ (menuLoop P options cur sub store evs).frames →
      isSelectableRow f.opts (f.rows.getD f.cur defaultFlatRow) = true
      ∧ f.cur < f.rows.length
      ∧ f.vp.startRow ≤ f.cur ∧ f.cur < f.vp.endRow
      ∧ (f.rows.length ≤ f.vp.maxVisible →
          f.vp.startRow = 0 ∧ f.vp.endRow = f.rows.length) := by
  intro evs
  induction evs with
  | nil =>
      intro P options cur sub store f hf
      simp only [menuLoop] at hf
      cases hsf : stepFrame P options cur store with
      | exitNone s2 => rw [hsf] at hf; simp at hf
      | frame rows cur2 vp =>
          rw [hsf] at hf
          simp only [List.mem_singleton] at hf
          subst hf
          obtain ⟨hr, hn, hlt, hsel, hvp⟩ := stepFrame_frame_inv _ _ _ _ _ _ _ hsf
          subst hvp
          exact ⟨hsel, hlt, viewportCalc_inv P.termHeight rows.length cur2 hlt⟩
  | cons ev rest ih =>
      intro P options cur sub store f hf
      simp only [menuLoop] at hf
      cases hsf : stepFrame P options cur store with
      | exitNone s2 => rw [hsf] at hf; simp at hf
      | frame rows cur2 vp =>
          rw [hsf] at hf
          obtain ⟨hr, hn, hlt, hsel, hvp⟩ := stepFrame_frame_inv _ _ _ _ _ _ _ hsf
          have hfr :
              isSelectableRow options (rows.getD cur2 defaultFlatRow) = true
              ∧ cur2 < rows.length
              ∧ vp.startRow ≤ cur2 ∧ cur2 < vp.endRow
              ∧ (rows.length ≤ vp.maxVisible →
                  vp.startRow = 0 ∧ vp.endRow = rows.length) := by
            subst hvp
            exact ⟨hsel, hlt, viewportCalc_inv P.termHeight rows.length cur2 hlt⟩
          cases ev with
          | raise =>
              simp only [List.mem_singleton] at hf
              subst hf
              exact hfr
          | press k =>
              dsimp only at hf
              cases hak : applyKey P options rows cur2 sub store k with
              | ret r s2 =>
                  rw [hak] at hf
                  simp only [List.mem_singleton] at hf
                  subst hf
                  exact hfr
              | diverge =>
                  rw [hak] at hf
                  simp only [List.mem_singleton] at hf
                  subst hf
                  exact hfr
              | cont options2 cur3 sub2 store2 =>
                  rw [hak] at hf
                  simp only [List.mem_cons] at hf
                  cases hf with
                  | inl hf => subst hf; exact hfr
                  | inr hf => exact ih P options2 cur3 sub2 store2 f hf

/-- Witness for C3: a frame of a concrete run satisfies the invariant. -/
theorem claim_C3_frame_invariant_witness :
    ∃ f : Frame,
      f ∈ (menuLoop singleParams demoTree 0 false [] [KeyEv.press (some MKey.DOWN)]).frames
      ∧ (isSelectableRow f.opts (f.rows.getD f.cur defaultFlatRow) = true
        ∧ f.cur < f.rows.length
        ∧ f.vp.startRow ≤ f.cur ∧ f.cur < f.vp.endRow
        ∧ (f.rows.length ≤ f.vp.maxVisible →
            f.vp.startRow = 0 ∧ f.vp.endRow = f.rows.length)) := by
  refine ⟨⟨demoTree, flatten demoTree, 0, false, viewportCalc 24 5 0⟩, List.Mem.head _, ?_⟩
  exact claim_C3_frame_invariant [KeyEv.press (some MKey.DOWN)] singleParams demoTree 0
    false [] _ (List.Mem.head _)

theorem any_selectable_of_getD (options : List MenuItem) (rows : List FlatRow)
    (cur : Nat) (hcur : cur < rows.length)
    (hsel : isSelectableRow options (rows.getD cur defaultFlatRow) = true) :
    (rows.any fun r => isSelectableRow options r) = true := by
  refine List.any_eq_true.mpr ⟨rows.getD cur defaultFlatRow, ?_, hsel⟩
  rw [List.getD_eq_getElem rows defaultFlatRow hcur]
  exact List.getElem_mem hcur

theorem stepFrame_id (P : MenuParams) (options : List MenuItem) (cur : Nat)
    (store : Store) (hlen : (flatten options).length ≠ 0)
    (hcur : cur < (flatten options).length)
    (hsel : isSelectableRow options ((flatten options).getD cur defaultFlatRow) = true) :
    stepFrame P options cur store
      = .frame (flatten options) cur
          (viewportCalc P.termHeight (flatten options).length cur) := by
  have hany := any_selectable_of_getD options (flatten options) cur hcur hsel
  simp only [stepFrame, hany]
  rw [if_neg hlen]
  simp only [Bool.not_true, Bool.false_eq_true, if_false]
  rw [normalizeCursor_selectable_id options (flatten options) cur hlen hcur hsel]

/-- Claim C1: pressing ENTER in multi-select mode makes the engine return
exactly the items whose `is_selected` flag is true at that moment, at any
nesting level, collected in declaration pre-order over the options tree —
for every cursor position, sub-navigation state and cursor memory, i.e.
after any navigation history. -/
theorem claim_C1_multi_enter_snapshot (P : MenuParams) (options : List MenuItem)
    (cur : Nat) (sub : Bool) (store : Store) (evs : List KeyEv)
    (hmulti : P.multiSelect = true)
    (hlen : (flatten options).length ≠ 0)
    (hex : ((flatten options).any fun r => isSelectableRow options r) = true) :
    (menuLoop P options cur sub store (KeyEv.press (some MKey.ENTER) :: evs)).result
        = MenuResult.itemsR (collectSelected options)
    ∧ collectSelected options = (preorder options).filter (fun x => x.is_selected) := by
  obtain ⟨cur2, hsf, hnorm⟩ := stepFrame_total P options cur store hlen hex
  obtain ⟨hlt, hsel⟩ := normalizeCursor_some options (flatten options) cur cur2 hnorm
  refine ⟨?_, collect_eq_filter options⟩
  simp only [menuLoop]
  rw [hsf]
  dsimp only
  have hsel2 : isSelectableRow options ((flatten options)[cur2]?.getD defaultFlatRow) = true := by
    rwa [List.getD_eq_getElem?_getD] at hsel
  have hak : applyKey P options (flatten options) cur2 sub store (some MKey.ENTER)
      = .ret (.itemsR (collectSelected options))
          (persistCursor P.menuId store (flatten options) cur2) := by
    simp [applyKey, hsel, hsel2, hmulti]
  rw [hak]

/-- Witness for C1: an ENTER press from a sub-navigation state returns
the two selected items of the demo tree in pre-order. -/
theorem claim_C1_multi_enter_snapshot_witness :
    multiParams.multiSelect = true
    ∧ (flatten demoTree).length ≠ 0
    ∧ ((flatten demoTree).any fun r => isSelectableRow demoTree r) = true
    ∧ ((menuLoop multiParams demoTree 2 true [] [KeyEv.press (some MKey.ENTER)]).result
          = MenuResult.itemsR (collectSelected demoTree)
      ∧ collectSelected demoTree = (preorder demoTree).filter (fun x => x.is_selected)) :=
  ⟨rfl, by decide, by decide,
    claim_C1_multi_enter_snapshot multiParams demoTree 2 true [] [] rfl
      (by decide) (by decide)⟩

/-- Claim C2: when the flattened row list is empty, or no flat row is
selectable, the invocation returns the no-selection sentinel immediately:
no frame is painted and no key event is consumed (zero key reads). -/
theorem claim_C2_no_selectable_immediate (P : MenuParams) (options : List MenuItem)
    (store : Store) (evs : List KeyEv)
    (h : (flatten options).length = 0
        ∨ ((flatten options).all fun r => !(isSelectableRow options r)) = true) :
    interactiveMenu P options store evs
      = ⟨MenuResult.noSelection, [], storeZero P.menuId store, evs⟩ := by
  have hsf : ∀ cur, stepFrame P options cur store
      = .exitNone (storeZero P.menuId store) := by
    intro cur
    cases h with
    | inl h0 => simp only [stepFrame]; rw [if_pos h0]
    | inr hall =>
        simp only [stepFrame]
        by_cases h0 : (flatten options).length = 0
        · rw [if_pos h0]
        · rw [if_neg h0]
          have hany : ((flatten options).any fun r => isSelectableRow options r) = false := by
            rw [List.any_eq_false]
            intro r hr
            have := List.all_eq_true.mp hall r hr
            simpa using this
          rw [hany]
          simp
  unfold interactiveMenu
  cases evs with
  | nil => simp only [menuLoop]; rw [hsf]
  | cons e rest => simp only [menuLoop]; rw [hsf]

/-- Witness for C2: a menu of two non-selectable static rows returns the
no-selection sentinel with the event queue untouched. -/
theorem claim_C2_no_selectable_immediate_witness :
    ((flatten unselectableTree).length = 0
      ∨ ((flatten unselectableTree).all fun r => !(isSelectableRow unselectableTree r)) = true)
    ∧ interactiveMenu singleParams unselectableTree [] [KeyEv.press (some MKey.ENTER)]
        = ⟨MenuResult.noSelection, [], storeZero singleParams.menuId [],
            [KeyEv.press (some MKey.ENTER)]⟩ :=
  ⟨Or.inr (by decide),
    claim_C2_no_selectable_immediate singleParams unselectableTree []
      [KeyEv.press (some MKey.ENTER)] (Or.inr (by decide))⟩

/-- Claim C6: the per-frame viewport is computed by the spec formula —
`max_visible_items = max(5, term_height - 15)`, cursor centering by
`half = max_visible_items // 2`, and the end clamp re-deriving `start` —
and for terminal height 20 with 50 flat rows exactly 5 rows are visible. -/
theorem claim_C6_viewport_formula :
    (∀ termHeight total cur : Nat,
        (((viewportCalc termHeight total cur).maxVisible : Int),
          ((viewportCalc termHeight total cur).startRow : Int),
          ((viewportCalc termHeight total cur).endRow : Int))
          = viewportSpecInt termHeight total cur)
    ∧ (∀ cur : Nat, cur < 50 →
        (viewportCalc 20 50 cur).maxVisible = 5
        ∧ (viewportCalc 20 50 cur).endRow - (viewportCalc 20 50 cur).startRow = 5
        ∧ (viewportCalc 20 50 cur).endRow ≤ 50) := by
  constructor
  · intro th total cur
    have hmax : ((max 5 (th - 15) : Nat) : Int) = max 5 ((th : Int) - 15) := by
      rcases Nat.le_total th 15 with h | h
      · have h0 : th - 15 = 0 := Nat.sub_eq_zero_of_le h
        have h1 : ((th : Int) - 15) ≤ 5 := by omega
        rw [h0, max_eq_left h1]
        norm_num
      · rw [Nat.cast_max, Nat.cast_sub h]
        norm_num
    simp only [viewportCalc, viewportSpecInt]
    rw [← hmax]
    split_ifs <;> simp only [Prod.mk.injEq] <;> refine ⟨?_, ?_, ?_⟩ <;>
      first
        | trivial
        | omega
  · decide

/-- Witness for C6 at terminal height 20, 50 rows, cursor 7. -/
theorem claim_C6_viewport_formula_witness :
    (((viewportCalc 20 50 7).maxVisible : Int),
      ((viewportCalc 20 50 7).startRow : Int),
      ((viewportCalc 20 50 7).endRow : Int)) = viewportSpecInt 20 50 7
    ∧ (7 < 50
      ∧ (viewportCalc 20 50 7).maxVisible = 5
      ∧ (viewportCalc 20 50 7).endRow - (viewportCalc 20 50 7).startRow = 5
      ∧ (viewportCalc 20 50 7).endRow ≤ 50) :=
  ⟨claim_C6_viewport_formula.1 20 50 7,
    by decide, claim_C6_viewport_formula.2 7 (by decide)⟩

/-! ### Cursor hide/show trace, ESC behaviour, cursor memory -/

/-- Claim C4: the cursor-hide escape sequence is emitted on entry and the
cursor-show sequence on every exit path — return of an item or a list,
return of the no-selection sentinel, and any exception raised inside the
render/input loop — because the show sits in the `finally`: the trace
always starts with hide and ends with show, and neither occurs in
between. -/
theorem claim_C4_cursor_hide_show (P : MenuParams) (options : List MenuItem)
    (store : Store) (evs : List KeyEv) :
    ∃ mids : List TermEv,
      menuTrace P options store evs
          = TermEv.cursorHide :: TermEv.clearScr :: mids ++ [TermEv.cursorShow]
      ∧ TermEv.cursorShow ∉ mids ∧ TermEv.cursorHide ∉ mids := by
  refine ⟨((interactiveMenu P options store evs).frames.map fun _ => TermEv.framePaint)
      ++ (if (interactiveMenu P options store evs).result.isThrown then [TermEv.raised]
          else []), ?_, ?_, ?_⟩
  · simp [menuTrace, List.append_assoc]
  · intro hmem
    rcases List.mem_append.mp hmem with hm | hm
    · obtain ⟨f, hf, he⟩ := List.mem_map.mp hm
      simp at he
    · by_cases ht : (interactiveMenu P options store evs).result.isThrown
      · rw [if_pos ht] at hm; simp at hm
      · rw [if_neg ht] at hm; simp at hm
  · intro hmem
    rcases List.mem_append.mp hmem with hm | hm
    · obtain ⟨f, hf, he⟩ := List.mem_map.mp hm
      simp at he
    · by_cases ht : (interactiveMenu P options store evs).result.isThrown
      · rw [if_pos ht] at hm; simp at hm
      · rw [if_neg ht] at hm; simp at hm

theorem findFirstIdx_some (p : FlatRow → Bool) :
    ∀ (rows : List FlatRow) (i : Nat), findFirstIdx p rows = some i →
      i < rows.length ∧ p (rows.getD i defaultFlatRow) = true := by
  intro rows
  induction rows with
  | nil => intro i h; simp [findFirstIdx] at h
  | cons r rest ih =>
      intro i h
      simp only [findFirstIdx] at h
      split at h
      · rename_i hp
        cases h
        exact ⟨by simp, by simpa using hp⟩
      · cases hr : findFirstIdx p rest with
        | none => rw [hr] at h; simp at h
        | some j =>
            rw [hr] at h
            simp at h
            obtain ⟨hj, hpj⟩ := ih j hr
            cases h
            refine ⟨by simpa using Nat.succ_lt_succ hj, ?_⟩
            simpa [List.getD_cons_succ] using hpj

/-- Every row produced by flattening is either a level-0 row with no
parent link (when it references a top-level item) or a level-1 row whose
parent link is its own top index. -/
theorem flattenFrom_row_shape (l : List MenuItem) :
    ∀ (n : Nat) (r : FlatRow), r ∈ flattenFrom n l →
      (r.objChild = none → r = FlatRow.mk r.objTop none 0 none)
      ∧ (r.objChild ≠ none → r.level = 1 ∧ r.parent = some r.objTop) := by
  induction l with
  | nil => intro n r h; simp [flattenFrom] at h
  | cons it rest ih =>
      intro n r h
      rw [flattenFrom_cons, List.cons_append] at h
      rcases List.mem_cons.mp h with h0 | h1
      · subst h0
        exact ⟨fun _ => rfl, fun hc => absurd rfl hc⟩
      · rcases List.mem_append.mp h1 with hm | hm
        · obtain ⟨j, hj, he⟩ := List.mem_map.mp hm
          subst he
          exact ⟨fun hc => by simp at hc, fun _ => ⟨rfl, rfl⟩⟩
        · exact ih (n + 1) r hm

/-- Claim C7: pressing ESC in top-level navigation persists the cursor
under the supplied menu id and returns the no-selection sentinel, while
pressing ESC in sub-navigation does not return — it switches back to
top-level navigation and repositions the cursor onto the level-0 row of
the parent whose children were being navigated. -/
theorem claim_C7_escape_behaviour :
    (∀ (P : MenuParams) (options : List MenuItem) (store : Store) (evs : List KeyEv)
        (cur : Nat) (m : String),
      P.menuId = some m →
      (flatten options).length ≠ 0 → cur < (flatten options).length →
      isSelectableRow options ((flatten options).getD cur defaultFlatRow) = true →
      ((flatten options).getD cur defaultFlatRow).level = 0 →
      (menuLoop P options cur false store (KeyEv.press (some MKey.ESC) :: evs)).result
          = MenuResult.noSelection
      ∧ (menuLoop P options cur false store (KeyEv.press (some MKey.ESC) :: evs)).remaining
          = evs
      ∧ storeFind (menuLoop P options cur false store
            (KeyEv.press (some MKey.ESC) :: evs)).store m = some cur)
    ∧ (∀ (P : MenuParams) (options : List MenuItem) (store : Store) (evs : List KeyEv)
        (cur p i : Nat),
      (flatten options).length ≠ 0 → cur < (flatten options).length →
      isSelectableRow options ((flatten options).getD cur defaultFlatRow) = true →
      ((flatten options).getD cur defaultFlatRow).level > 0 →
      ((flatten options).getD cur defaultFlatRow).parent = some p →
      findFirstIdx (fun r => r.objTop == p && r.objChild == none) (flatten options)
          = some i →
      menuLoop P options cur true store (KeyEv.press (some MKey.ESC) :: evs)
          = ⟨(menuLoop P options i false store evs).result,
              Frame.mk options (flatten options) cur true
                  (viewportCalc P.termHeight (flatten options).length cur)
                :: (menuLoop P options i false store evs).frames,
              (menuLoop P options i false store evs).store,
              (menuLoop P options i false store evs).remaining⟩
      ∧ (flatten options).getD i defaultFlatRow = FlatRow.mk p none 0 none) := by
  constructor
  · intro P options store evs cur m hm hlen hcur hsel hlv
    rw [menuLoop, stepFrame_id P options cur store hlen hcur hsel]
    dsimp only
    have hak : applyKey P options (flatten options) cur false store (some MKey.ESC)
        = .ret .noSelection (persistCursor P.menuId store (flatten options) cur) := by
      simp [applyKey]
    rw [hak]
    refine ⟨rfl, rfl, ?_⟩
    simp only [persistCursor, hm]
    rw [if_neg hlen, Nat.mod_eq_of_lt hcur]
    rw [hlv]
    simp [storeSet, storeFind, List.find?]
  · intro P options store evs cur p i hlen hcur hsel hlv hp hfind
    obtain ⟨hi, hpi⟩ := findFirstIdx_some _ (flatten options) i hfind
    constructor
    · rw [menuLoop, stepFrame_id P options cur store hlen hcur hsel]
      dsimp only
      have hak : applyKey P options (flatten options) cur true store (some MKey.ESC)
          = .cont options i false store := by
        simp only [applyKey, if_true]
        rw [if_pos hlv, hp]
        dsimp only
        rw [hfind]
      rw [hak]
    · have hrow := flattenFrom_row_shape options 0 ((flatten options).getD i defaultFlatRow)
        (by rw [List.getD_eq_getElem _ _ hi]; exact List.getElem_mem hi)
      simp only [Bool.and_eq_true, beq_iff_eq] at hpi
      obtain ⟨htop, hchild⟩ := hpi
      have := hrow.1 (by simpa using hchild)
      rw [this, htop]

/-- Witness for C7: both ESC behaviours at concrete states of the demo
tree (cursor on the level-0 row `A`, and cursor on the child row `b0`
whose parent row is at flat index 1). -/
theorem claim_C7_escape_behaviour_witness :
    (singleParams.menuId = some "menu"
      ∧ (flatten demoTree).length ≠ 0 ∧ 0 < (flatten demoTree).length
      ∧ ((menuLoop singleParams demoTree 0 false [] [KeyEv.press (some MKey.ESC)]).result
            = MenuResult.noSelection
        ∧ (menuLoop singleParams demoTree 0 false []
              [KeyEv.press (some MKey.ESC)]).remaining = []
        ∧ storeFind (menuLoop singleParams demoTree 0 false []
              [KeyEv.press (some MKey.ESC)]).store "menu" = some 0))
    ∧ (findFirstIdx (fun r => r.objTop == 1 && r.objChild == none) (flatten demoTree)
          = some 1
      ∧ (menuLoop singleParams demoTree 2 true [] [KeyEv.press (some MKey.ESC)]
            = ⟨(menuLoop singleParams demoTree 1 false [] []).result,
                Frame.mk demoTree (flatten demoTree) 2 true
                    (viewportCalc singleParams.termHeight (flatten demoTree).length 2)
                  :: (menuLoop singleParams demoTree 1 false [] []).frames,
                (menuLoop singleParams demoTree 1 false [] []).store,
                (menuLoop singleParams demoTree 1 false [] []).remaining⟩
        ∧ (flatten demoTree).getD 1 defaultFlatRow = FlatRow.mk 1 none 0 none)) :=
  ⟨⟨rfl, by decide, by decide,
      claim_C7_escape_behaviour.1 singleParams demoTree [] [] 0 "menu" rfl
        (by decide) (by decide) (by decide) (by decide)⟩,
    ⟨by decide,
      claim_C7_escape_behaviour.2 singleParams demoTree [] [] 2 1 1
        (by decide) (by decide) (by decide) (by decide) (by decide) (by decide)⟩⟩

/-- Claim C8: with a `menu_id`, a re-invocation reads the persisted flat
index from the cursor store and starts its first frame there; the
remembered index is wrapped modulo the row count and, when the row it
lands on is not selectable, advanced to the nearest (forward) selectable
row before the first frame is painted. -/
theorem claim_C8_cursor_memory (P : MenuParams) (options : List MenuItem)
    (store : Store) (evs : List KeyEv) (m : String) (k : Nat)
    (hm : P.menuId = some m) (hk : storeFind store m = some k)
    (hlen : (flatten options).length ≠ 0)
    (hex : ((flatten options).any fun r => isSelectableRow options r) = true) :
    ((interactiveMenu P options store evs).frames.head?).map Frame.cur
        = normalizeCursor options (flatten options) k
    ∧ (isSelectableRow options
          ((flatten options).getD (k % (flatten options).length) defaultFlatRow) = true →
        normalizeCursor options (flatten options) k
          = some (k % (flatten options).length))
    ∧ (∀ c2, normalizeCursor options (flatten options) k = some c2 →
        isSelectableRow options ((flatten options).getD c2 defaultFlatRow) = true
        ∧ c2 < (flatten options).length) := by
  refine ⟨?_, ?_, ?_⟩
  · unfold interactiveMenu
    rw [hm]
    simp only [storeGet, hk, Option.getD_some]
    obtain ⟨cur2, hsf, hnorm⟩ := stepFrame_total P options k store hlen hex
    rw [hnorm]
    cases evs with
    | nil =>
        simp only [menuLoop]
        rw [hsf]
        rfl
    | cons ev rest =>
        simp only [menuLoop]
        rw [hsf]
        cases ev with
        | raise => rfl
        | press k2 =>
            cases hak : applyKey P options (flatten options) cur2 false store k2 <;>
              simp [hak]
  · intro hsel
    unfold normalizeCursor
    rw [if_neg hlen, if_pos hsel]
  · intro c2 h
    obtain ⟨h1, h2⟩ := normalizeCursor_some options (flatten options) k c2 h
    exact ⟨h2, h1⟩

/-- Witness for C8: a first invocation of the demo menu confirms the item
at flat index 4 and persists it; the re-invocation with the store it left
behind starts its first frame at index 4. -/
theorem claim_C8_cursor_memory_witness :
    singleParams.menuId = some "menu"
    ∧ storeFind resumeStore "menu" = some 4
    ∧ (((interactiveMenu singleParams demoTree resumeStore []).frames.head?).map Frame.cur
          = normalizeCursor demoTree (flatten demoTree) 4
      ∧ (isSelectableRow demoTree
            ((flatten demoTree).getD (4 % (flatten demoTree).length) defaultFlatRow) = true →
          normalizeCursor demoTree (flatten demoTree) 4
            = some (4 % (flatten demoTree).length))
      ∧ (∀ c2, normalizeCursor demoTree (flatten demoTree) 4 = some c2 →
          isSelectableRow demoTree ((flatten demoTree).getD c2 defaultFlatRow) = true
          ∧ c2 < (flatten demoTree).length)) :=
  ⟨rfl, by decide,
    claim_C8_cursor_memory singleParams demoTree resumeStore [] "menu" 4 rfl
      (by decide) (by decide) (by decide)⟩

/-- Claim C9 is refuted by the code: the two repaint strategies always
agree on the return value — `repaint_strategy` is consulted only in the
render path — but not on the final screen content.  At this input the
dynamic block shrinks by one line (the highlighted item of the middle
frame has no description), the surplus line is blanked, and the next
frame moves the terminal cursor up by the new line count while it sits
one line lower, so the incremental screen keeps a stale extra line: the
final screens differ even after discarding trailing blank lines. -/
theorem claim_C9_repaint_not_equivalent :
    (interactiveMenu bugParams bugOptions [] bugEvents).result = MenuResult.noSelection
    ∧ dropTrailingEmpty (renderRun bugParams false
          (interactiveMenu bugParams bugOptions [] bugEvents).frames).term.lines
        ≠ dropTrailingEmpty (renderRun bugParams true
          (interactiveMenu bugParams bugOptions [] bugEvents).frames).term.lines :=
  ⟨rfl, by decide⟩

/-- A run fed only null keys (the only thing `read_key` can produce off
Windows) never confirms, cancels or navigates: it just consumes its
events and runs out of keys. -/
theorem menuLoop_allNone (P : MenuParams) (options : List MenuItem)
    (hlen : (flatten options).length ≠ 0)
    (hex : ((flatten options).any fun r => isSelectableRow options r) = true) :
    ∀ (n : Nat) (cur : Nat) (sub : Bool) (store : Store),
      (menuLoop P options cur sub store (List.replicate n (KeyEv.press none))).result
        = MenuResult.outOfKeys := by
  intro n
  induction n with
  | zero =>
      intro cur sub store
      obtain ⟨cur2, hsf, _⟩ := stepFrame_total P options cur store hlen hex
      simp only [List.replicate, menuLoop]
      rw [hsf]
  | succ n ih =>
      intro cur sub store
      obtain ⟨cur2, hsf, _⟩ := stepFrame_total P options cur store hlen hex
      simp only [List.replicate, menuLoop]
      rw [hsf]
      dsimp only
      exact ih cur2 sub store

/-- Claim C10 (implicit behaviour): on every platform other than Windows
with `msvcrt` present, `read_key` returns `None` without consuming any
input and without raising; only the Windows path decodes the byte stream
into the logical key alphabet, with `0x03` raising `KeyboardInterrupt`.
Consequently a menu driven by the non-Windows `read_key` only ever sees
null keys and can never confirm, cancel or navigate. -/
theorem claim_C10_posix_read_key :
    (∀ (osName : String) (msvcrtPresent : Bool) (input : List Nat),
        osName ≠ "nt" ∨ msvcrtPresent = false →
        read_key osName msvcrtPresent input = (ReadKeyOut.keyNone, input))
    ∧ (∀ rest : List Nat,
        read_key "nt" true (224 :: 72 :: rest) = (ReadKeyOut.key "UP", rest)
        ∧ read_key "nt" true (224 :: 80 :: rest) = (ReadKeyOut.key "DOWN", rest)
        ∧ read_key "nt" true (224 :: 75 :: rest) = (ReadKeyOut.key "LEFT", rest)
        ∧ read_key "nt" true (224 :: 77 :: rest) = (ReadKeyOut.key "RIGHT", rest)
        ∧ read_key "nt" true (13 :: rest) = (ReadKeyOut.key "ENTER", rest)
        ∧ read_key "nt" true (32 :: rest) = (ReadKeyOut.key "SPACE", rest)
        ∧ read_key "nt" true (27 :: rest) = (ReadKeyOut.key "ESC", rest)
        ∧ read_key "nt" true (3 :: rest) = (ReadKeyOut.interrupt, rest))
    ∧ (∀ (P : MenuParams) (options : List MenuItem) (store : Store) (n : Nat),
        (flatten options).length ≠ 0 →
        ((flatten options).any fun r => isSelectableRow options r) = true →
        (interactiveMenu P options store (List.replicate n (KeyEv.press none))).result
          = MenuResult.outOfKeys) := by
  refine ⟨?_, ?_, ?_⟩
  · intro osName msvcrt input h
    unfold read_key
    split
    · rename_i hc
      exfalso
      simp only [Bool.and_eq_true, decide_eq_true_eq] at hc
      rcases h with h | h
      · exact h hc.1
      · rw [h] at hc; exact absurd hc.2 (by simp)
    · rfl
  · intro rest
    exact ⟨rfl, rfl, rfl, rfl, rfl, rfl, rfl, rfl⟩
  · intro P options store n hlen hex
    exact menuLoop_allNone P options hlen hex n _ false store

/-- Witness for C10: `read_key` on a POSIX os name leaves an ENTER byte
unread, and a demo-menu run fed three null keys ends out of keys. -/
theorem claim_C10_posix_read_key_witness :
    ("posix" ≠ "nt" ∨ true = false)
    ∧ read_key "posix" true [13] = (ReadKeyOut.keyNone, [13])
    ∧ (flatten demoTree).length ≠ 0
    ∧ ((flatten demoTree).any fun r => isSelectableRow demoTree r) = true
    ∧ (interactiveMenu singleParams demoTree []
          (List.replicate 3 (KeyEv.press none))).result = MenuResult.outOfKeys :=
  ⟨Or.inl (by decide),
    claim_C10_posix_read_key.1 "posix" true [13] (Or.inl (by decide)),
    by decide, by decide,
    claim_C10_posix_read_key.2.2 singleParams demoTree [] 3 (by decide) (by decide)⟩

/-- Witness for C5 at a concrete tree and index 1 (the item with two
children). -/
theorem claim_C5_flatten_order_witness :
    (1 < demoTree.length)
    ∧ ((flatten demoTree).drop ((flatten (demoTree.take 1)).length)).take
          (1 + (demoTree.getD 1 defaultMenuItem).children.length)
        = FlatRow.mk 1 none 0 none
            :: (List.range (demoTree.getD 1 defaultMenuItem).children.length).map
                (fun j => FlatRow.mk 1 (some j) 1 (some 1)) :=
  ⟨by decide, claim_C5_flatten_order.2 demoTree 1 (by decide)⟩

end MenuEngine
